import Mathlib

/-
Verification development for champ/kd.py (Kd fitting engine).

Conventions of the shallow embedding:
* Python floats are idealized as real numbers (or rationals where a
  decidable computation is needed); `np.log` is `Real.log`.
* The `IntensityArray` collaborator (`self.IA`) is out of src/; its outputs
  (per-concentration modes/stdevs/medians, cluster intensity pools) are
  passed to the embedded functions as explicit arguments.
* Stateful methods become functions from their inputs to a record of the
  attributes they set.
* The code targets Python 3 (setup.py declares Python :: 3.7 and kd.py uses
  an f-string), so Python-3 semantics of `print(...)` (a function returning
  None) and of `map(...)` (a non-subscriptable iterator) are modelled where
  a claim depends on them.
-/

namespace Champ

/-- Python exception outcomes relevant to kd.py, as observable error values. -/
inductive PyErr where
  | attributeError (msg : String)
  | typeError (msg : String)
  | assertionError (msg : Option String)
  | valueError
  | indexError
  | keyError (key : String)
  | stopIteration
  deriving DecidableEq, Repr

/-! ### Python 3 semantics of the statement `print(template).format(args...)`

In Python 3, `print` is a function that writes its argument and returns
`None`; attribute lookup `None.format` then raises `AttributeError` before
the format arguments are even evaluated.  kd.py contains this construct
(a Python 2 leftover) at `ML_fit_Kd` (line 223) and `fit_all_Kds`
(line 276). -/

/-- A Python value as needed here: `None` or a string. -/
inductive PyVal where
  | none
  | str (s : String)
  deriving DecidableEq, Repr

/-- Python 3 `print(s)`: writes `s` to stdout, returns `None`. -/
def printRet (_s : String) : PyVal := PyVal.none

/-- Interleave the pieces of a template split at placeholders with the
arguments, as Python str.format does for a well-formed call. -/
def interleaveJoin : List String → List String → String
  | [], _ => ""
  | p :: ps, [] => p ++ interleaveJoin ps []
  | p :: ps, a :: as => p ++ a ++ interleaveJoin ps as

/-- Python `{}`-style formatting of a template string. -/
def pyFormat (t : String) (args : List String) : String :=
  interleaveJoin (t.splitOn "\x7b\x7d") args

/-- Method call `v.format(args)`: succeeds on a string receiver, raises
AttributeError on `None`. -/
def formatMeth : PyVal → List String → Except PyErr String
  | PyVal.str s, args => Except.ok ( pyFormat s args)
  | PyVal.none, _ =>
      Except.error (PyErr.attributeError "NoneType object has no attribute format")

/-- Result record of a scipy.optimize.minimize call: convergence flag and
the best point found. -/
structure OptResult where
  success : Bool
  x : ℝ

/-- The tail of KdFitIA.ML_fit_Kd (kd.py lines 220-224): on non-convergence
the code executes `print("...Failure on ...").format(seq, mm_name)` and then
would return `float(res.x)`.  Embedded with Python-3 statement semantics. -/
def ML_fit_Kd_postprocess (seq mm_name : String) (res : OptResult) : Except PyErr ℝ :=
  if res.success then Except.ok res.x
  else
    match formatMeth (printRet "\nWarning: Failure on \x7b\x7d (\x7b\x7d)") [seq, mm_name] with
    | Except.ok _ => Except.ok res.x
    | Except.error e => Except.error e

/-- The first statement of KdFitIA.fit_all_Kds after the result dictionaries
are initialized (kd.py line 276):
`print("{} Seqs, '.'={}\n").format(self.IA.nseqs, dot_val)`. -/
def fit_all_Kds_progress_line (nseqs dot_val : ℕ) : Except PyErr String :=
  formatMeth (printRet "\x7b\x7d Seqs, .=\x7b\x7d\n") [toString nseqs, toString dot_val]

/-! ### The binding model (KdFitIA.model_logL, lines 114-115, and find_Imax) -/

/-- Binding fraction theta(x, Kd) = 1 / (1 + Kd/x), as defined inside
KdFitIA.model_logL (kd.py lines 114-115). -/
noncomputable def theta (x Kd : ℝ) : ℝ := 1 / (1 + Kd / x)

/-- The two-parameter isotherm `Iobs` defined inside KdFitIA.find_Imax
(kd.py lines 68-69): (Imax - Imin_const) / (1 + Kd/x) + Imin_const. -/
noncomputable def Iobs (Imin_const x Kd Imax : ℝ) : ℝ :=
  (Imax - Imin_const) / (1 + Kd / x) + Imin_const

/-- One entry of KdFitIA.Imax_adjusted (kd.py lines 81-87): for a
concentration `conc` with per-concentration negative-control mode `Imin`
and target median `med`, using the joint-fit reference `perfect_Kd` and
`Imax_const`. -/
noncomputable def Imax_adjusted_entry (Imin_const Imax_const perfect_Kd conc Imin med : ℝ) : ℝ :=
  if Iobs Imin_const conc perfect_Kd Imax_const < 0.90 * Imax_const then
    Imax_const
  else
    Imin + (1 + perfect_Kd / conc) * (med - Imin)

/-! ### ABA (kd.py lines 268-269 and 528-531) -/

/-- The ABA helper defined inside KdFitIA.fit_all_Kds (kd.py lines 268-269):
ABA(Kd, neg_cont_Kd) = log(neg_cont_Kd) - log(Kd). -/
noncomputable def ABA (Kd neg_cont_Kd : ℝ) : ℝ :=
  Real.log neg_cont_Kd - Real.log Kd

/-! ### BaselineEstimator (KdFitIA.find_Imin_and_background_noise, lines 48-61)

The negative-control summary statistics are supplied by the IntensityArray
collaborator (`self.IA`, outside src/): `modes_given_seq` and
`stdevs_given_seq` return one robust mode / stdev per concentration.
Intensities here are rationals so that the statistics are decidable. -/

/-- Modelled from the spec: the robust mode statistic that the
IntensitySource collaborator (the champ intensity-array module, absent from
src/) computes for a pool of intensities.  The spec only calls it a "robust
mode"; it is modelled as a most-frequent value of the pool (first such value
on ties). -/
def mode (l : List ℚ) : ℚ :=
  (l.argmax (fun x => l.count x)).getD 0

/-- The attributes set by KdFitIA.find_Imin_and_background_noise. -/
structure IminResult where
  Imin_neg_cont : List ℚ
  Imin_const : ℚ
  Imin_stdev : List ℚ

/-- KdFitIA.find_Imin_and_background_noise (kd.py lines 48-61): given the
per-concentration negative-control modes and stdevs from the IA, sets
Imin_neg_cont to the list of modes, Imin_const to its first entry
(`self.Imin_neg_cont[0]`), and Imin_stdev to the stdevs. -/
def find_Imin_and_background_noise (modes_neg stdevs_neg : List ℚ) : IminResult :=
  ⟨modes_neg, modes_neg.headI, stdevs_neg⟩

/-! ### model_logL (kd.py lines 95-147)

A sequence's cluster intensity data, per concentration: `loarr` is the
dense array form (`IA.intensity_loarr_given_seq[seq]`), `lol` the list form
with absent readings as `None` (`IA.intensity_lol_given_seq[seq]`). -/

structure SeqData where
  loarr : List (List ℝ)
  lol : List (List (Option ℝ))

/-- The per-(sequence, concentration) log-likelihood contribution
(kd.py lines 138-142): -n log sigma - 1/(2 sigma^2) * sum (I - yhat)^2. -/
noncomputable def clusterTerm (sigma yhat : ℝ) (arr : List ℝ) : ℝ :=
  -(arr.length : ℝ) * Real.log sigma
    - 1 / (2 * sigma ^ 2) * ((arr.map (fun I => (I - yhat) ^ 2)).sum)

/-- One iteration of the `for cidx, (inten_arr, inten_list) in
enumerate(zip(loarr, lol))` loop of model_logL (kd.py lines 132-142):
bootstrap mode selects `inten_list[idx]` for each drawn index, dropping
`None` entries; otherwise the first `max_clust` entries of the array. -/
noncomputable def concTerm (concentrations Imin_stdev sigma_consts Imin_list Imax_list : List ℝ)
    (Kd : ℝ) (max_clust : ℕ) (bootstrap_idxs : Option (List ℕ))
    (cidx : ℕ) (inten_arr : List ℝ) (inten_list : List (Option ℝ)) : ℝ :=
  let th := theta (concentrations.getD cidx 0) Kd
  let sigma := Imin_stdev.getD cidx 0 + th * sigma_consts.getD cidx 0
  let yhat := Imin_list.getD cidx 0 + th * Imax_list.getD cidx 0
  let arr := match bootstrap_idxs with
    | Option.none => inten_arr.take max_clust
    | Option.some idxs => idxs.filterMap (fun idx => (inten_list.get? idx).getD Option.none)
  clusterTerm sigma yhat arr

/-- The concentration loop of model_logL for one sequence, accumulated from
concentration index `cidx` over the zipped (loarr, lol) tail. -/
noncomputable def seqTermAux (concentrations Imin_stdev sigma_consts Imin_list Imax_list : List ℝ)
    (Kd : ℝ) (max_clust : ℕ) (bootstrap_idxs : Option (List ℕ)) :
    ℕ → List (List ℝ × List (Option ℝ)) → ℝ
  | _, [] => 0
  | cidx, (arr, lst) :: rest =>
      concTerm concentrations Imin_stdev sigma_consts Imin_list Imax_list
          Kd max_clust bootstrap_idxs cidx arr lst
        + seqTermAux concentrations Imin_stdev sigma_consts Imin_list Imax_list
            Kd max_clust bootstrap_idxs (cidx + 1) rest

/-- The full concentration loop of model_logL for one sequence. -/
noncomputable def seqTerm (concentrations Imin_stdev sigma_consts Imin_list Imax_list : List ℝ)
    (Kd : ℝ) (sd : SeqData) (max_clust : ℕ) (bootstrap_idxs : Option (List ℕ)) : ℝ :=
  seqTermAux concentrations Imin_stdev sigma_consts Imin_list Imax_list
    Kd max_clust bootstrap_idxs 0 (sd.loarr.zip sd.lol)

/-- KdFitIA.model_logL (kd.py lines 95-147): data term summed over the
sequences (zipped with their Kds) plus the Gaussian regularization of the
per-concentration Imax values toward Imax_const with spread sigI. -/
noncomputable def model_logL (concentrations Imin_stdev : List ℝ) (Imax_const : ℝ)
    (seqs : List SeqData) (Kds Imin_list Imax_list sigma_consts : List ℝ) (sigI : ℝ)
    (max_clust : ℕ) (bootstrap_idxs : Option (List ℕ)) : ℝ :=
  ((seqs.zip Kds).map (fun p =>
      seqTerm concentrations Imin_stdev sigma_consts Imin_list Imax_list
        p.2 p.1 max_clust bootstrap_idxs)).sum
  + (-(Imax_list.length : ℝ) * Real.log sigI
      - 1 / (2 * sigI ^ 2) * ((Imax_list.map (fun m => (m - Imax_const) ^ 2)).sum))

/-! ### The bootstrap draw of ML_fit_Kd (kd.py lines 198-204) -/

/-- The support of `np.random.choice(np.arange(len_inten_list),
size=min(len_inten_list, max_clust), replace=True)` where
`len_inten_list = len(IA.intensity_lol_given_seq[seq][0])`: any index
vector of exactly that size whose entries index the first concentration's
cluster list.  Randomness is modelled by quantifying over this support. -/
def bootstrapDraw (sd : SeqData) (max_clust : ℕ) (idxs : List ℕ) : Prop :=
  idxs.length = min sd.lol.headI.length max_clust ∧
    ∀ i ∈ idxs, i < sd.lol.headI.length

/-- The dataset obtained by selecting, at every concentration, the clusters
named by the same index vector (dropping None entries). -/
def resampleData (sd : SeqData) (idxs : List ℕ) : SeqData :=
  ⟨sd.lol.map (fun lst => idxs.filterMap (fun idx => (lst.get? idx).getD Option.none)),
   sd.lol.map (fun lst =>
     (idxs.filterMap (fun idx => (lst.get? idx).getD Option.none)).map Option.some)⟩

/-! ### fit_Imax_ML_given_Imin (kd.py lines 149-184) -/

/-- The initial guess x0 of fit_Imax_ML_given_Imin (kd.py lines 163-168):
per-sequence curve-fit Kds, then the Imax_adjusted profile, then 1 for each
concentration's sigma_const, then (Imax_const - Imin_const)/10 for sigI. -/
noncomputable def fit_Imax_x0 (curve_fit_Kds Imax_adjusted : List ℝ) (course_len : ℕ)
    (Imax_const Imin_const : ℝ) : List ℝ :=
  curve_fit_Kds ++ Imax_adjusted ++ List.replicate course_len 1
    ++ [(Imax_const - Imin_const) / 10]

/-- The intended objective of fit_Imax_ML_given_Imin (kd.py lines 155-161,
under the Python 2 reading where `map(abs, params)` is a list): the negative
model_logL on the absolute values of the parameters, sliced at
idx1 = len(ML_seqs), idx2 = idx1 + course_len, idx3 = idx2 + course_len. -/
noncomputable def neg_log_L_intended (concentrations Imin_stdev : List ℝ) (Imax_const : ℝ)
    (ML_seqs : List SeqData) (Imin_list : List ℝ) (max_clust : ℕ)
    (idx1 idx2 idx3 : ℕ) (params : List ℝ) : ℝ :=
  let p := params.map (fun t => |t|)
  Neg.neg (model_logL concentrations Imin_stdev Imax_const ML_seqs
    (p.take idx1) Imin_list ((p.drop idx1).take (idx2 - idx1))
    ((p.drop idx2).take (idx3 - idx2)) (p.getD idx3 0) max_clust Option.none)

/-- A Python 3 `map` object (a lazy iterator over the listed elements). -/
structure PyMapObj where
  elems : List ℝ

/-- Python 3 `map(abs, params)`. -/
def pyMapAbs (params : List ℝ) : PyMapObj :=
  ⟨params.map (fun t => |t|)⟩

/-- Subscripting a Python 3 map object (`m[:idx1]`) raises TypeError:
map objects are not subscriptable. -/
def pySliceMapObj (_m : PyMapObj) (_lo _hi : Option ℕ) : Except PyErr (List ℝ) :=
  Except.error (PyErr.typeError "map object is not subscriptable")

/-- The body of neg_log_L as actually written (kd.py lines 155-161) under
Python 3 semantics: `params = map(abs, params)` makes a map object and
`params[:idx1]` is a subscript of it.  The rest of the body (never reached)
is elided behind the bind. -/
def neg_log_L_py3 (idx1 : ℕ) (params : List ℝ) : Except PyErr ℝ := do
  let p := pyMapAbs params
  let _Kds ← pySliceMapObj p Option.none (Option.some idx1)
  Except.ok 0

/-! ### The result file (KdFitIA.write_results, lines 298-327, and
IAKdData, lines 492-531)

A written file is modelled as its list of lines, each line as the list of
its whitespace-separated tokens — exactly the granularity at which the
reader consumes it (`line.strip().split()`; both tab and space are
whitespace).  A token that is Python `str(float(v))` is carried as
`Tok.num v`, absorbing the float-to-string-to-float round trip;
`float(tok)` succeeds exactly on these.  Sequence identifiers (and header
words) are `Tok.str` tokens; identifiers are assumed whitespace-free, as in
the data this code processes. -/

inductive Tok where
  | str (s : String)
  | num (x : ℝ)

/-- Python `float(token)`: ok on a numeric token, ValueError otherwise. -/
def floatTok : Tok → Except PyErr ℝ
  | Tok.num x => Except.ok x
  | Tok.str _ => Except.error PyErr.valueError

/-- One concentration row of write_results (kd.py lines 312-313). -/
def concRowTok (r : ℝ × ℝ × ℝ) : List Tok :=
  [Tok.num r.1, Tok.num r.2.1, Tok.num r.2.2]

/-- One sequence data row of write_results (kd.py lines 315-327). -/
def seqRowTok (r : String × ℝ × ℝ × ℝ × ℝ) : List Tok :=
  [Tok.str r.1, Tok.num r.2.1, Tok.num r.2.2.1, Tok.num r.2.2.2.1, Tok.num r.2.2.2.2]

/-- The written line `# Target: <target>` (kd.py line 309). -/
def targetHeaderLine (target : String) : List Tok :=
  [Tok.str "#", Tok.str "Target:", Tok.str target]

/-- The written line `# Neg Control: <neg_control>` (kd.py line 310). -/
def negHeaderLine (neg_control : String) : List Tok :=
  [Tok.str "#", Tok.str "Neg", Tok.str "Control:", Tok.str neg_control]

/-- The written concentration table header (kd.py line 311). -/
def concHeaderLine : List Tok :=
  [Tok.str "#", Tok.str "Concentration", Tok.str "Imin", Tok.str "Imax"]

/-- The written sequence table header (kd.py line 314). -/
def seqHeaderLine : List Tok :=
  [Tok.str "#", Tok.str "Seq", Tok.str "Kd", Tok.str "(pM)", Tok.str "Kd", Tok.str "error",
   Tok.str "ABA", Tok.str "(kB", Tok.str "T)", Tok.str "ABA", Tok.str "error"]

/-- KdFitIA.write_results for one strategy pair (kd.py lines 308-327): the
two identity headers, the concentration table with its header, and the
per-sequence rows with their header.  Python `zip` truncates to the
shortest list, as does List.zip. -/
def writeLines (target neg_control : String) (concentrations Imin Imax : List ℝ)
    (seqs : List String) (Kds Kd_errors ABAs ABA_errors : List ℝ) : List (List Tok) :=
  [targetHeaderLine target, negHeaderLine neg_control, concHeaderLine]
  ++ (concentrations.zip (Imin.zip Imax)).map concRowTok
  ++ [seqHeaderLine]
  ++ (seqs.zip (Kds.zip (Kd_errors.zip (ABAs.zip ABA_errors)))).map seqRowTok

/-- Python str.startswith as a character-level prefix test. -/
def strStartsWith (s p : String) : Bool :=
  p.data.isPrefixOf s.data

/-- `line.startswith("#")` at token granularity. -/
def isHashLine : List Tok → Bool
  | Tok.str s :: _ => strStartsWith s "#"
  | _ => false

/-- `line.startswith("# Target:")` (kd.py line 498). -/
def headerTarget : List Tok → Bool
  | Tok.str h :: Tok.str t :: _ => h == "#" && strStartsWith t "Target:"
  | _ => false

/-- `line.startswith("# Neg Control")` (kd.py line 501). -/
def headerNeg : List Tok → Bool
  | Tok.str h :: Tok.str n :: Tok.str c :: _ =>
      h == "#" && n == "Neg" && strStartsWith c "Control"
  | _ => false

/-- startswith of the concentration table header (kd.py line 504). -/
def headerConc : List Tok → Bool
  | Tok.str h :: Tok.str c :: Tok.str i :: Tok.str x :: _ =>
      h == "#" && c == "Concentration" && i == "Imin" && strStartsWith x "Imax"
  | _ => false

/-- `line.startswith("# Seq")` (kd.py line 512). -/
def headerSeq : List Tok → Bool
  | Tok.str h :: Tok.str s :: _ => h == "#" && strStartsWith s "Seq"
  | _ => false

/-- `line.strip().split(": ")[1]` on the target header (kd.py line 499),
whose value is the token after "# Target:"; IndexError when absent. -/
def targetOfLine : List Tok → Except PyErr String
  | _ :: _ :: Tok.str t :: _ => Except.ok t
  | _ => Except.error PyErr.indexError

/-- `line.strip().split(": ")[1]` on the neg-control header (kd.py line
502), whose value is the token after "# Neg Control:". -/
def negControlOfLine : List Tok → Except PyErr String
  | _ :: _ :: _ :: Tok.str t :: _ => Except.ok t
  | _ => Except.error PyErr.indexError

/-- The `while not line.startswith("#")` loop of IAKdData.__init__
(kd.py lines 505-511): parse (conc, Imin, Imax) float triples until a
hash line; return the rows, the terminating line, and the remainder.
Running out of lines is the uncaught StopIteration of `next(f)`; a row
that does not unpack into three floats is the ValueError of
`conc, imn, imx = map(float, line.strip().split())`. -/
def parseConcRows : List (List Tok) → Except PyErr (List (ℝ × ℝ × ℝ) × List Tok × List (List Tok))
  | [] => Except.error PyErr.stopIteration
  | l :: rest =>
    if isHashLine l then Except.ok ([], l, rest)
    else
      match l with
      | [a, b, c] => do
          let conc ← floatTok a
          let imn ← floatTok b
          let imx ← floatTok c
          let (rows, hline, remaining) ← parseConcRows rest
          Except.ok ((conc, imn, imx) :: rows, hline, remaining)
      | _ => Except.error PyErr.valueError

/-- The four result dictionaries of IAKdData, in insertion order. -/
structure SeqMaps where
  Kd : List (String × ℝ)
  Kd_error : List (String × ℝ)
  ABA : List (String × ℝ)
  ABA_error : List (String × ℝ)

/-- The `for line in f` loop of IAKdData.__init__ (kd.py lines 513-523):
skip hash lines, take words[0] as the key, fail on a duplicate key with
`assert seq not in self.Kd, seq`, parse the four remaining floats, extend
the four dictionaries.  A row whose first token is numeric-looking is
outside this token model (the writer never emits one). -/
def parseSeqRows : List (List Tok) → SeqMaps → Except PyErr SeqMaps
  | [], acc => Except.ok acc
  | l :: rest, acc =>
    if isHashLine l then parseSeqRows rest acc
    else
      match l with
      | Tok.str seq :: others =>
          if (acc.Kd.lookup seq).isSome then
            Except.error (PyErr.assertionError (Option.some seq))
          else
            match others with
            | [a, b, c, d] => do
                let Kd_val ← floatTok a
                let Kd_err ← floatTok b
                let ABA_val ← floatTok c
                let ABA_err ← floatTok d
                parseSeqRows rest
                  ⟨acc.Kd ++ [(seq, Kd_val)], acc.Kd_error ++ [(seq, Kd_err)],
                   acc.ABA ++ [(seq, ABA_val)], acc.ABA_error ++ [(seq, ABA_err)]⟩
            | _ => Except.error PyErr.valueError
      | [] => Except.error PyErr.indexError
      | Tok.num _ :: _ => Except.error PyErr.valueError

/-- The attributes of a successfully constructed IAKdData
(kd.py lines 492-526). -/
structure IAKdData where
  target : String
  neg_control_target : String
  concentrations : List ℝ
  Imin : List ℝ
  Imax : List ℝ
  Kd : List (String × ℝ)
  Kd_error : List (String × ℝ)
  ABA : List (String × ℝ)
  ABA_error : List (String × ℝ)
  neg_control_Kd : ℝ
  log_neg_control_Kd : ℝ
  target_ABA : ℝ

/-- IAKdData.ABA_given_Kd (kd.py lines 528-531): None for None, else
log(neg_control_Kd) - log(Kd) via the stored log_neg_control_Kd. -/
noncomputable def IAKdData.ABA_given_Kd (d : IAKdData) : Option ℝ → Option ℝ
  | Option.none => Option.none
  | Option.some Kd => Option.some (d.log_neg_control_Kd - Real.log Kd)

/-- The tail of IAKdData.__init__ after the sequence header (kd.py lines
513-526): parse the data rows, look up the negative control's Kd (the
KeyError of `self.Kd[self.neg_control_target]` when absent), take its log,
and look up the target's ABA (`self.ABA[self.target]`). -/
noncomputable def readRows (tgt nc : String) (rows : List (ℝ × ℝ × ℝ))
    (rest : List (List Tok)) : Except PyErr IAKdData :=
  match parseSeqRows rest ⟨[], [], [], []⟩ with
  | Except.error e => Except.error e
  | Except.ok maps =>
    match maps.Kd.lookup nc with
    | Option.none => Except.error (PyErr.keyError nc)
    | Option.some negKd =>
      match maps.ABA.lookup tgt with
      | Option.none => Except.error (PyErr.keyError tgt)
      | Option.some tABA =>
        Except.ok
          ⟨tgt, nc,
           rows.map (fun r => r.1), rows.map (fun r => r.2.1), rows.map (fun r => r.2.2),
           maps.Kd, maps.Kd_error, maps.ABA, maps.ABA_error,
           negKd, Real.log negKd, tABA⟩

/-- Concentration table and sequence header of IAKdData.__init__
(kd.py lines 505-512). -/
noncomputable def readConcTable (tgt nc : String) (rest : List (List Tok)) :
    Except PyErr IAKdData :=
  match parseConcRows rest with
  | Except.error e => Except.error e
  | Except.ok (rows, hline, rest4) =>
    if headerSeq hline then readRows tgt nc rows rest4
    else Except.error (PyErr.assertionError Option.none)

/-- Second and third header lines of IAKdData.__init__
(kd.py lines 500-504). -/
noncomputable def readNegLine (tgt : String) (rest1 : List (List Tok)) :
    Except PyErr IAKdData :=
  match rest1 with
  | [] => Except.error PyErr.stopIteration
  | l2 :: rest2 =>
    if headerNeg l2 then
      match negControlOfLine l2 with
      | Except.error e => Except.error e
      | Except.ok nc =>
        match rest2 with
        | [] => Except.error PyErr.stopIteration
        | l3 :: rest3 =>
          if headerConc l3 then readConcTable tgt nc rest3
          else Except.error (PyErr.assertionError Option.none)
    else Except.error (PyErr.assertionError Option.none)

/-- IAKdData.__init__ (kd.py lines 493-526): validate the target header,
extract the target, then proceed through the remaining sections. -/
noncomputable def readKdFile (lines : List (List Tok)) : Except PyErr IAKdData :=
  match lines with
  | [] => Except.error PyErr.stopIteration
  | l1 :: rest1 =>
    if headerTarget l1 then
      match targetOfLine l1 with
      | Except.error e => Except.error e
      | Except.ok tgt => readNegLine tgt rest1
    else Except.error (PyErr.assertionError Option.none)

/-- The reconstructed tables of a successful read: concentration/Imin/Imax
lists and the four per-sequence result maps. -/
noncomputable def readResult (lines : List (List Tok)) :
    Except PyErr ((List ℝ × List ℝ × List ℝ) ×
      (List (String × ℝ) × List (String × ℝ) × List (String × ℝ) × List (String × ℝ))) :=
  (readKdFile lines).map (fun d =>
    ((d.concentrations, d.Imin, d.Imax), (d.Kd, d.Kd_error, d.ABA, d.ABA_error)))

/-- A concrete two-concentration dataset (one present and one absent
reading) used to instantiate the bootstrap theorems. -/
def sdExample : SeqData :=
  ⟨[[1, 2]], [[Option.some 1, Option.none]]⟩

section ThetaLemmas

/-- For positive x the binding fraction simplifies to x / (x + Kd). -/
theorem theta_eq_div (x Kd : ℝ) (hx : x ≠ 0) : theta x Kd = x / (x + Kd) := by
  unfold theta
  have h1 : 1 + Kd / x = (x + Kd) / x := by field_simp
  rw [h1, one_div_div]

end ThetaLemmas

/-- C1: for every Kd > 0 and concentrations 0 < x < y, theta is strictly
increasing (theta x Kd < theta y Kd), theta lies strictly between 0 and 1,
and theta Kd Kd = 1/2. -/
theorem theta_props :
    (∀ Kd x y : ℝ, 0 < Kd → 0 < x → x < y → theta x Kd < theta y Kd) ∧
    (∀ Kd x : ℝ, 0 < Kd → 0 < x → 0 < theta x Kd ∧ theta x Kd < 1) ∧
    (∀ Kd : ℝ, 0 < Kd → theta Kd Kd = 1 / 2) := by
  refine ⟨?_, ?_, ?_⟩
  · intro Kd x y hKd hx hxy
    have hy : 0 < y := hx.trans hxy
    rw [theta_eq_div x Kd (ne_of_gt hx), theta_eq_div y Kd (ne_of_gt hy)]
    rw [div_lt_div_iff₀ (by linarith) (by linarith)]
    nlinarith
  · intro Kd x hKd hx
    rw [theta_eq_div x Kd (ne_of_gt hx)]
    constructor
    · exact div_pos hx (by linarith)
    · rw [div_lt_one (by linarith)]
      linarith
  · intro Kd hKd
    rw [theta_eq_div Kd Kd (ne_of_gt hKd)]
    rw [div_eq_iff (by linarith)]
    ring

/-- Witness for C1 at Kd = 2, x = 1, y = 3. -/
theorem theta_props_witness :
    theta 1 2 < theta 3 2 ∧ (0 < theta 1 2 ∧ theta 1 2 < 1) ∧ theta 2 2 = 1 / 2 :=
  ⟨theta_props.1 2 1 3 (by norm_num) (by norm_num) (by norm_num),
   theta_props.2.1 2 1 (by norm_num) (by norm_num),
   theta_props.2.2 2 (by norm_num)⟩

/-- C2: the derived ABA equals log(neg control Kd) - log(sequence Kd): the
fit_all_Kds helper and IAKdData.ABA_given_Kd (whose stored
log_neg_control_Kd is the log of the stored neg control Kd) return the same
value; for every positive negative-control Kd, ABA is 0 at Kd =
neg-control Kd and is strictly decreasing in the sequence's Kd. -/
theorem ABA_props :
    (∀ (d : IAKdData) (k : ℝ), d.log_neg_control_Kd = Real.log d.neg_control_Kd →
      d.ABA_given_Kd (Option.some k) = Option.some (ABA k d.neg_control_Kd)) ∧
    (∀ neg_Kd : ℝ, 0 < neg_Kd → ABA neg_Kd neg_Kd = 0) ∧
    (∀ neg_Kd k1 k2 : ℝ, 0 < neg_Kd → 0 < k1 → k1 < k2 →
      ABA k2 neg_Kd < ABA k1 neg_Kd) := by
  refine ⟨?_, ?_, ?_⟩
  · intro d k h
    simp [IAKdData.ABA_given_Kd, ABA, h]
  · intro neg_Kd _
    simp [ABA]
  · intro neg_Kd k1 k2 _ h1 h12
    unfold ABA
    have hlog := Real.log_lt_log h1 h12
    linarith

/-- Witness for C2 at neg-control Kd 2 (structure instance) and 1, 2. -/
theorem ABA_props_witness :
    (IAKdData.mk "T" "N" [] [] [] [] [] [] [] 2 (Real.log 2) 0).ABA_given_Kd (Option.some 3)
        = Option.some (ABA 3 (IAKdData.mk "T" "N" [] [] [] [] [] [] [] 2 (Real.log 2) 0).neg_control_Kd) ∧
      ABA 2 2 = 0 ∧ ABA 2 1 < ABA 1 1 :=
  ⟨ABA_props.1 (IAKdData.mk "T" "N" [] [] [] [] [] [] [] 2 (Real.log 2) 0) 3 rfl,
   ABA_props.2.1 2 (by norm_num),
   ABA_props.2.2 1 1 2 (by norm_num) (by norm_num) (by norm_num)⟩

/-- C4 counterexample: at Imin_const = 0, Imax_const = 1, reference Kd = 1,
concentration 1 (with per-concentration Imin 0 and median 0), the predicted
isotherm value is below 90 percent of Imax_const, yet the Imax_adjusted
entry EQUALS Imax_const — the code falls back to Imax_const there, it does
not differ from it. -/
theorem Imax_adjusted_low_sat_counterexample :
    Iobs 0 1 1 1 < 0.90 * 1 ∧ Imax_adjusted_entry 0 1 1 1 0 0 = 1 := by
  have h : Iobs 0 1 1 1 < 0.90 * 1 := by norm_num [Iobs]
  refine ⟨h, ?_⟩
  simp only [Imax_adjusted_entry]
  rw [if_pos h]

/-- C4 (amended): for a concentration whose predicted isotherm value is
below 90 percent of Imax_const, the Imax_adjusted entry EQUALS Imax_const
(the fallback); at or above 90 percent it is Imin + (1 + Kd/conc) *
(median - Imin), which inverts the isotherm at the concentration's median:
substituting the entry as Imax gives back the median. -/
theorem Imax_adjusted_policy :
    ∀ Imin_const Imax_const perfect_Kd conc Imin med : ℝ,
      (Iobs Imin_const conc perfect_Kd Imax_const < 0.90 * Imax_const →
        Imax_adjusted_entry Imin_const Imax_const perfect_Kd conc Imin med = Imax_const) ∧
      (0.90 * Imax_const ≤ Iobs Imin_const conc perfect_Kd Imax_const →
        Imax_adjusted_entry Imin_const Imax_const perfect_Kd conc Imin med
            = Imin + (1 + perfect_Kd / conc) * (med - Imin)) ∧
      (0.90 * Imax_const ≤ Iobs Imin_const conc perfect_Kd Imax_const →
        1 + perfect_Kd / conc ≠ 0 →
        (Imax_adjusted_entry Imin_const Imax_const perfect_Kd conc Imin med - Imin)
            / (1 + perfect_Kd / conc) + Imin = med) := by
  intro Imin_const Imax_const perfect_Kd conc Imin med
  have hbranch : 0.90 * Imax_const ≤ Iobs Imin_const conc perfect_Kd Imax_const →
      Imax_adjusted_entry Imin_const Imax_const perfect_Kd conc Imin med
        = Imin + (1 + perfect_Kd / conc) * (med - Imin) := by
    intro h
    simp only [Imax_adjusted_entry]
    rw [if_neg (not_lt.mpr h)]
  refine ⟨?_, hbranch, ?_⟩
  · intro h
    simp only [Imax_adjusted_entry]
    rw [if_pos h]
  · intro h hden
    rw [hbranch h]
    have hsub : Imin + (1 + perfect_Kd / conc) * (med - Imin) - Imin
        = (1 + perfect_Kd / conc) * (med - Imin) := by ring
    rw [hsub, mul_div_cancel_left₀ (med - Imin) hden]
    ring

/-- Witness for C4 (amended): the fallback branch at concentration 1 and
the inversion branch at concentration 100. -/
theorem Imax_adjusted_policy_witness :
    Imax_adjusted_entry 0 1 1 1 0 0 = 1 ∧
      Imax_adjusted_entry 0 1 1 100 0 (1 / 2) = 0 + (1 + 1 / 100) * (1 / 2 - 0) ∧
      (Imax_adjusted_entry 0 1 1 100 0 (1 / 2) - 0) / (1 + 1 / 100) + 0 = 1 / 2 :=
  ⟨(Imax_adjusted_policy 0 1 1 1 0 0).1 (by norm_num [Iobs]),
   (Imax_adjusted_policy 0 1 1 100 0 (1 / 2)).2.1 (by norm_num [Iobs]),
   (Imax_adjusted_policy 0 1 1 100 0 (1 / 2)).2.2 (by norm_num [Iobs]) (by norm_num)⟩

/-- C5 counterexample: with negative-control pools [0,0,0] at the first
concentration and [5,5,5,5,5] at the second, Imin_const as computed by
find_Imin_and_background_noise is 0 (the first concentration's mode), while
the robust mode of the intensities pooled across all concentrations is 5. -/
theorem Imin_const_not_pooled_mode :
    (find_Imin_and_background_noise ([[(0 : ℚ), 0, 0], [5, 5, 5, 5, 5]].map mode) []).Imin_const
      ≠ mode ([(0 : ℚ), 0, 0] ++ [5, 5, 5, 5, 5]) := by
  decide

/-- C5 (amended): find_Imin_and_background_noise sets Imin_const to the
robust mode of the negative-control intensities at the FIRST concentration
(the first entry of Imin_neg_cont), while Imin_neg_cont holds the
per-concentration robust modes and Imin_stdev the per-concentration
stdevs. -/
theorem find_Imin_first_conc_mode :
    ∀ (pools : List (List ℚ)) (stdevs : List ℚ) (h : pools ≠ []),
      (find_Imin_and_background_noise (pools.map mode) stdevs).Imin_neg_cont
          = pools.map mode ∧
        (find_Imin_and_background_noise (pools.map mode) stdevs).Imin_const
          = mode (pools.head h) ∧
        (find_Imin_and_background_noise (pools.map mode) stdevs).Imin_stdev = stdevs := by
  intro pools stdevs h
  refine ⟨rfl, ?_, rfl⟩
  cases pools with
  | nil => exact absurd rfl h
  | cons p ps => rfl

/-- Witness for C5 (amended) on the two-concentration example. -/
theorem find_Imin_first_conc_mode_witness :
    (find_Imin_and_background_noise ([[(0 : ℚ), 0, 0], [5, 5, 5, 5, 5]].map mode) [1, 2]).Imin_neg_cont
        = [[(0 : ℚ), 0, 0], [5, 5, 5, 5, 5]].map mode ∧
      (find_Imin_and_background_noise ([[(0 : ℚ), 0, 0], [5, 5, 5, 5, 5]].map mode) [1, 2]).Imin_const
        = mode ([[(0 : ℚ), 0, 0], [5, 5, 5, 5, 5]].head (by decide)) ∧
      (find_Imin_and_background_noise ([[(0 : ℚ), 0, 0], [5, 5, 5, 5, 5]].map mode) [1, 2]).Imin_stdev
        = [1, 2] :=
  find_Imin_first_conc_mode [[0, 0, 0], [5, 5, 5, 5, 5]] [1, 2] (by decide)

/-- C6: when the optimizer reports non-convergence, ML_fit_Kd executes
Python-3 `print("...Failure on ...").format(seq, ...)`: print returns None
and the .format attribute lookup raises AttributeError, so the warning is
printed without the sequence identifier and ML_fit_Kd raises instead of
returning the best point found. -/
theorem ML_fit_Kd_nonconvergence_raises :
    ML_fit_Kd_postprocess "ACGTACGT" "2M4_5" (OptResult.mk false 20)
      = Except.error (PyErr.attributeError "NoneType object has no attribute format") := rfl

/-- C7: fit_all_Kds begins with Python-3
`print("{} Seqs, ...").format(nseqs, dot_val)`, which raises AttributeError
unconditionally — every call (degenerate pools or not) crashes before any
bootstrap error is computed, so no NaN error value is ever produced. -/
theorem fit_all_Kds_progress_raises :
    fit_all_Kds_progress_line 1000 100
      = Except.error (PyErr.attributeError "NoneType object has no attribute format") := rfl

/-- C9: the joint-calibration parameter vector.  Part 1: the initial guess
x0 (curve-fit Kds, Imax_adjusted profile, unit sigma_consts, and
(Imax_const - Imin_const)/10 for sigI) has dimension n_seqs + 2 N_c + 1
(so the `assert len(x0) == idx3 + 1` holds).  Part 2: slicing the
absolute-valued parameter vector at idx1 = n, idx2 = n + c, idx3 = n + 2c
recovers one Kd per calibration sequence, one Imax and one sigma_const per
concentration, and the scalar sigI, so the intended objective is the
negative model_logL on those absolute values.  Part 3: the objective as
actually written crashes under Python 3 — `map(abs, params)` is not
subscriptable — so it raises TypeError instead of evaluating. -/
theorem fit_Imax_ML_given_Imin_props :
    (∀ (curve_fit_Kds Imax_adjusted : List ℝ) (course_len : ℕ) (Imax_const Imin_const : ℝ),
      Imax_adjusted.length = course_len →
        (fit_Imax_x0 curve_fit_Kds Imax_adjusted course_len Imax_const Imin_const).length
          = curve_fit_Kds.length + 2 * course_len + 1) ∧
    (∀ (concentrations Imin_stdev : List ℝ) (Imax_const : ℝ) (ML_seqs : List SeqData)
        (Imin_list : List ℝ) (max_clust : ℕ) (Kds Imaxs sig_cs : List ℝ) (sigI : ℝ) (n c : ℕ),
      Kds.length = n → Imaxs.length = c → sig_cs.length = c →
        neg_log_L_intended concentrations Imin_stdev Imax_const ML_seqs Imin_list max_clust
            n (n + c) (n + 2 * c) (Kds ++ Imaxs ++ sig_cs ++ [sigI])
          = Neg.neg (model_logL concentrations Imin_stdev Imax_const ML_seqs
              (Kds.map (fun t => |t|)) Imin_list (Imaxs.map (fun t => |t|))
              (sig_cs.map (fun t => |t|)) |sigI| max_clust Option.none)) ∧
    (∀ (idx1 : ℕ) (params : List ℝ),
      neg_log_L_py3 idx1 params
        = Except.error (PyErr.typeError "map object is not subscriptable")) := by
  refine ⟨?_, ?_, ?_⟩
  · intro curve_fit_Kds Imax_adjusted course_len Imax_const Imin_const h
    simp only [fit_Imax_x0, List.length_append, List.length_replicate,
      List.length_singleton, h]
    omega
  · intro concentrations Imin_stdev Imax_const ML_seqs Imin_list max_clust
      Kds Imaxs sig_cs sigI n c hK hI hs
    have hKA : (Kds.map (fun t => |t|)).length = n := by rw [List.length_map]; exact hK
    have hIA : (Imaxs.map (fun t => |t|)).length = c := by rw [List.length_map]; exact hI
    have hSA : (sig_cs.map (fun t => |t|)).length = c := by rw [List.length_map]; exact hs
    simp only [neg_log_L_intended, List.map_append, List.map_cons, List.map_nil]
    rw [List.append_assoc, List.append_assoc]
    rw [List.take_left' hKA]
    rw [List.drop_left' hKA]
    rw [Nat.add_sub_cancel_left]
    rw [List.take_left' hIA]
    rw [show n + 2 * c - (n + c) = c from by omega]
    rw [← List.append_assoc]
    rw [List.drop_left' (show _ = n + c from by rw [List.length_append, hKA, hIA])]
    rw [List.take_left' hSA]
    rw [← List.append_assoc]
    have hlen3 : ((Kds.map (fun t => |t|) ++ Imaxs.map (fun t => |t|))
        ++ sig_cs.map (fun t => |t|)).length = n + 2 * c := by
      simp only [List.length_append, hKA, hIA, hSA]
      omega
    have hidx : n + 2 * c - ((Kds.map (fun t => |t|) ++ Imaxs.map (fun t => |t|)
        ++ sig_cs.map (fun t => |t|)).length) = 0 := by
      rw [hlen3]
      omega
    rw [List.getD_eq_getElem?_getD, List.getElem?_append_right (le_of_eq hlen3), hidx]
    rfl
  · intro idx1 params
    rfl

/-- Witness for C9 at a one-sequence, one-concentration instance. -/
theorem fit_Imax_ML_given_Imin_props_witness :
    (fit_Imax_x0 [20] [1, 2] 2 1 0).length = ([20] : List ℝ).length + 2 * 2 + 1 ∧
      neg_log_L_intended [] [] 0 [] [] 0 1 (1 + 1) (1 + 2 * 1) ([1] ++ [2] ++ [3] ++ [(4 : ℝ)])
        = Neg.neg (model_logL [] [] 0 [] (([1] : List ℝ).map (fun t => |t|)) []
            (([2] : List ℝ).map (fun t => |t|)) (([3] : List ℝ).map (fun t => |t|))
            |(4 : ℝ)| 0 Option.none) ∧
      neg_log_L_py3 0 []
        = Except.error (PyErr.typeError "map object is not subscriptable") :=
  ⟨fit_Imax_ML_given_Imin_props.1 [20] [1, 2] 2 1 0 rfl,
   fit_Imax_ML_given_Imin_props.2.1 [] [] 0 [] [] 0 [1] [2] [3] 4 1 1 rfl rfl rfl,
   fit_Imax_ML_given_Imin_props.2.2 0 []⟩

/-- The concentration loop of model_logL evaluated on a bootstrap index
vector equals the plain loop evaluated on the dataset resampled by that
same vector at every concentration. -/
theorem seqTermAux_bootstrap
    (concentrations Imin_stdev sigma_consts Imin_list Imax_list : List ℝ)
    (Kd : ℝ) (max_clust M : ℕ) (idxs : List ℕ) (hM : idxs.length ≤ M) :
    ∀ (k : ℕ) (la : List (List ℝ)) (ll : List (List (Option ℝ))), la.length = ll.length →
      seqTermAux concentrations Imin_stdev sigma_consts Imin_list Imax_list Kd max_clust
          (Option.some idxs) k (List.zipWith Prod.mk la ll)
        = seqTermAux concentrations Imin_stdev sigma_consts Imin_list Imax_list Kd M
            Option.none k
            (List.zipWith Prod.mk
              (ll.map (fun lst => idxs.filterMap (fun idx => (lst.get? idx).getD Option.none)))
              (ll.map (fun lst =>
                (idxs.filterMap (fun idx => (lst.get? idx).getD Option.none)).map Option.some))) := by
  intro k la ll
  induction la generalizing k ll with
  | nil =>
    intro h
    cases ll with
    | nil => rfl
    | cons b bs => exact absurd h (by simp)
  | cons a as ih =>
    intro h
    cases ll with
    | nil => exact absurd h (by simp)
    | cons b bs =>
      simp only [List.map_cons, List.zipWith_cons_cons, seqTermAux]
      have hlen : as.length = bs.length := by simpa using h
      rw [ih (k + 1) bs hlen]
      congr 1
      simp only [concTerm]
      rw [List.take_of_length_le ((List.length_filterMap_le _ _).trans hM)]

/-- C10: in a bootstrapped ML fit the index vector is drawn once — with
replacement, of size min(first-concentration pool size, max_clust), over
the index range of the first concentration's cluster list (the
bootstrapDraw hypothesis) — and model_logL applies that same index vector
at every concentration, dropping None entries, so the log-likelihood equals
the plain (non-bootstrap) log-likelihood of the dataset in which whole
clusters were resampled across the titration series. -/
theorem ML_fit_Kd_bootstrap_shared_indices :
    ∀ (concentrations Imin_stdev : List ℝ) (Imax_const : ℝ) (sd : SeqData) (Kd : ℝ)
      (Imin_list Imax_list sigma_consts : List ℝ) (sigI : ℝ) (max_clust M : ℕ)
      (idxs : List ℕ),
      bootstrapDraw sd max_clust idxs →
      sd.loarr.length = sd.lol.length →
      idxs.length ≤ M →
      model_logL concentrations Imin_stdev Imax_const [sd] [Kd] Imin_list Imax_list
          sigma_consts sigI max_clust (Option.some idxs)
        = model_logL concentrations Imin_stdev Imax_const [resampleData sd idxs] [Kd]
            Imin_list Imax_list sigma_consts sigI M Option.none := by
  intro concentrations Imin_stdev Imax_const sd Kd Imin_list Imax_list sigma_consts sigI
    max_clust M idxs _hdraw hlen hM
  unfold model_logL
  congr 1
  simp only [List.zip_cons_cons, List.zip_nil_left, List.map_cons, List.map_nil,
    List.sum_cons, List.sum_nil, add_zero]
  unfold seqTerm resampleData
  simp only [List.zip]
  exact seqTermAux_bootstrap concentrations Imin_stdev sigma_consts Imin_list Imax_list Kd
    max_clust M idxs hM 0 sd.loarr sd.lol hlen

/-- Witness for C10 on a two-cluster example (second reading absent),
drawing both indices. -/
theorem ML_fit_Kd_bootstrap_shared_indices_witness :
    model_logL [1] [0] 1 [sdExample] [1] [0] [1] [1] 1 5 (Option.some [0, 1])
      = model_logL [1] [0] 1 [resampleData sdExample [0, 1]] [1] [0] [1] [1] 1 2
          Option.none :=
  ML_fit_Kd_bootstrap_shared_indices [1] [0] 1 sdExample 1 [0] [1] [1] 1 5 2 [0, 1]
    (by unfold bootstrapDraw; exact ⟨rfl, by decide⟩) rfl (by decide)

/-- Bind of a successful Except value. -/
theorem except_ok_bind {α β : Type} (a : α) (f : α → Except PyErr β) :
    (Except.ok a : Except PyErr α) >>= f = f a := rfl

/-- Bind of a failed Except value. -/
theorem except_error_bind {α β : Type} (e : PyErr) (f : α → Except PyErr β) :
    (Except.error e : Except PyErr α) >>= f = Except.error e := rfl

/-- Looking a key up past an association list that does not contain it. -/
theorem lookup_append_none {β : Type} (l1 l2 : List (String × β)) (k : String)
    (h : l1.lookup k = Option.none) : (l1 ++ l2).lookup k = l2.lookup k := by
  induction l1 with
  | nil => rfl
  | cons p t ih =>
    obtain ⟨a, b⟩ := p
    rw [List.lookup_cons] at h
    rw [List.cons_append, List.lookup_cons]
    cases hk : k == a with
    | true =>
      rw [hk] at h
      simp at h
    | false =>
      rw [hk] at h
      simp only []
      exact ih h

/-- A singleton association list misses every other key. -/
theorem lookup_singleton_ne {β : Type} (s k : String) (v : β) (h : (k == s) = false) :
    ([(s, v)] : List (String × β)).lookup k = Option.none := by
  rw [List.lookup_cons, h]
  rfl

/-- A key that lookup misses is not among the stored keys. -/
theorem lookup_none_not_mem {β : Type} (l : List (String × β)) (k : String)
    (h : l.lookup k = Option.none) : k ∉ l.map Prod.fst := by
  induction l with
  | nil => simp
  | cons p t ih =>
    obtain ⟨a, b⟩ := p
    rw [List.lookup_cons] at h
    cases hk : k == a with
    | true =>
      rw [hk] at h
      simp at h
    | false =>
      rw [hk] at h
      simp only [List.map_cons, List.mem_cons]
      rintro (he | hm)
      · rw [he] at hk
        simp at hk
      · exact ih h hm

/-- Zipping equal-length lists and looking up a present key succeeds. -/
theorem lookup_zip_mem {β : Type} :
    ∀ (keys : List String) (vals : List β) (k : String), k ∈ keys →
      keys.length = vals.length →
      ∃ v, (keys.zip vals).lookup k = Option.some v := by
  intro keys
  induction keys with
  | nil =>
    intro vals k hk _
    simp at hk
  | cons s t ih =>
    intro vals k hk hlen
    cases vals with
    | nil => simp at hlen
    | cons v vt =>
      rw [List.zip_cons_cons, List.lookup_cons]
      cases hks : k == s with
      | true => exact ⟨v, rfl⟩
      | false =>
        have hkt : k ∈ t := by
          rcases List.mem_cons.mp hk with he | hm
          · rw [he] at hks
            simp at hks
          · exact hm
        exact ih vt k hkt (by simpa using hlen)

/-- Projecting the written concentration triples back into the three
columns. -/
theorem zip3_projections :
    ∀ (l1 l2 l3 : List ℝ), l1.length = l2.length → l2.length = l3.length →
      ((l1.zip (l2.zip l3)).map (fun r => r.1) = l1 ∧
        (l1.zip (l2.zip l3)).map (fun r => r.2.1) = l2 ∧
        (l1.zip (l2.zip l3)).map (fun r => r.2.2) = l3) := by
  intro l1
  induction l1 with
  | nil =>
    intro l2 l3 h12 h23
    cases l2 with
    | nil =>
      cases l3 with
      | nil => simp
      | cons c t3 => simp at h23
    | cons b t2 => simp at h12
  | cons a t ih =>
    intro l2 l3 h12 h23
    cases l2 with
    | nil => simp at h12
    | cons b t2 =>
      cases l3 with
      | nil => simp at h23
      | cons c t3 =>
        obtain ⟨p1, p2, p3⟩ := ih t2 t3 (by simpa using h12) (by simpa using h23)
        simp [List.zip_cons_cons, p1, p2, p3]

/-- Projecting the written five-column rows back into the four
per-sequence maps. -/
theorem zip5_projections :
    ∀ (seqs : List String) (l1 l2 l3 l4 : List ℝ),
      seqs.length = l1.length → l1.length = l2.length → l2.length = l3.length →
      l3.length = l4.length →
      ((seqs.zip (l1.zip (l2.zip (l3.zip l4)))).map (fun r => (r.1, r.2.1)) = seqs.zip l1 ∧
        (seqs.zip (l1.zip (l2.zip (l3.zip l4)))).map (fun r => (r.1, r.2.2.1)) = seqs.zip l2 ∧
        (seqs.zip (l1.zip (l2.zip (l3.zip l4)))).map (fun r => (r.1, r.2.2.2.1)) = seqs.zip l3 ∧
        (seqs.zip (l1.zip (l2.zip (l3.zip l4)))).map (fun r => (r.1, r.2.2.2.2)) = seqs.zip l4) := by
  intro seqs
  induction seqs with
  | nil =>
    intro l1 l2 l3 l4 _ _ _ _
    simp
  | cons s t ih =>
    intro l1 l2 l3 l4 h1 h2 h3 h4
    cases l1 with
    | nil => simp at h1
    | cons a t1 =>
      cases l2 with
      | nil => simp at h2
      | cons b t2 =>
        cases l3 with
        | nil => simp at h3
        | cons c t3 =>
          cases l4 with
          | nil => simp at h4
          | cons d t4 =>
            obtain ⟨p1, p2, p3, p4⟩ := ih t1 t2 t3 t4 (by simpa using h1)
              (by simpa using h2) (by simpa using h3) (by simpa using h4)
            simp [List.zip_cons_cons, p1, p2, p3, p4]

/-- parseConcRows consumes exactly the written concentration rows and stops
at the first hash line. -/
theorem parseConcRows_append (rows : List (ℝ × ℝ × ℝ)) (hl : List Tok)
    (rest : List (List Tok)) (hh : isHashLine hl = true) :
    parseConcRows (rows.map concRowTok ++ hl :: rest) = Except.ok (rows, hl, rest) := by
  induction rows with
  | nil =>
    simp only [List.map_nil, List.nil_append]
    unfold parseConcRows
    rw [hh]
    rfl
  | cons r rs ih =>
    obtain ⟨cc, ii, xx⟩ := r
    have step : parseConcRows (((cc, ii, xx) :: rs).map concRowTok ++ hl :: rest)
        = (parseConcRows (rs.map concRowTok ++ hl :: rest)).bind
            (fun t => match t with
              | (rows2, hline, remaining) =>
                  Except.ok ((cc, ii, xx) :: rows2, hline, remaining)) := rfl
    rw [step, ih]
    rfl

/-- Reading past the three written header lines. -/
theorem readKdFile_cons_headers (target neg_control : String) (rest : List (List Tok)) :
    readKdFile (targetHeaderLine target :: negHeaderLine neg_control :: concHeaderLine :: rest)
      = readConcTable target neg_control rest := rfl

/-- Reading the written concentration table hands the parsed rows to the
sequence-row phase. -/
theorem readConcTable_table (tgt nc : String) (rows : List (ℝ × ℝ × ℝ)) (hl : List Tok)
    (rest : List (List Tok)) (hh : isHashLine hl = true) (hsq : headerSeq hl = true) :
    readConcTable tgt nc (rows.map concRowTok ++ hl :: rest) = readRows tgt nc rows rest := by
  unfold readConcTable
  rw [parseConcRows_append rows hl rest hh]
  simp [hsq]

/-- parseSeqRows consumes the written data rows, extending the four maps in
order, provided no row key starts with a hash, none collides with the
accumulator, and the row keys are distinct. -/
theorem parseSeqRows_append :
    ∀ (rows : List (String × ℝ × ℝ × ℝ × ℝ)) (acc : SeqMaps),
      (∀ r ∈ rows, strStartsWith r.1 "#" = false) →
      (∀ r ∈ rows, acc.Kd.lookup r.1 = Option.none) →
      (rows.map (fun r => r.1)).Nodup →
      parseSeqRows (rows.map seqRowTok) acc
        = Except.ok ⟨acc.Kd ++ rows.map (fun r => (r.1, r.2.1)),
                     acc.Kd_error ++ rows.map (fun r => (r.1, r.2.2.1)),
                     acc.ABA ++ rows.map (fun r => (r.1, r.2.2.2.1)),
                     acc.ABA_error ++ rows.map (fun r => (r.1, r.2.2.2.2))⟩ := by
  intro rows
  induction rows with
  | nil =>
    intro acc _ _ _
    simp [parseSeqRows]
  | cons r rs ih =>
    intro acc hhash hfresh hnodup
    obtain ⟨s, kv, kev, av, aev⟩ := r
    have hs1 : strStartsWith s "#" = false := hhash (s, kv, kev, av, aev) (List.mem_cons_self _ _)
    have hf1 : acc.Kd.lookup s = Option.none := hfresh _ (List.mem_cons_self _ _)
    have hnot : s ∉ rs.map (fun r => r.1) := by
      have := hnodup
      simp only [List.map_cons] at this
      exact (List.nodup_cons.mp this).1
    have step : parseSeqRows ((( s, kv, kev, av, aev) :: rs).map seqRowTok) acc
        = if strStartsWith s "#" then parseSeqRows (rs.map seqRowTok) acc
          else if (acc.Kd.lookup s).isSome then
            Except.error (PyErr.assertionError (Option.some s))
          else parseSeqRows (rs.map seqRowTok)
            ⟨acc.Kd ++ [(s, kv)], acc.Kd_error ++ [(s, kev)],
             acc.ABA ++ [(s, av)], acc.ABA_error ++ [(s, aev)]⟩ := rfl
    rw [step]
    rw [if_neg (by simp [hs1])]
    rw [if_neg (by simp [hf1])]
    rw [ih ⟨acc.Kd ++ [(s, kv)], acc.Kd_error ++ [(s, kev)],
          acc.ABA ++ [(s, av)], acc.ABA_error ++ [(s, aev)]⟩
        (fun r hr => hhash r (List.mem_cons_of_mem _ hr))
        ?_ (by simpa using (List.nodup_cons.mp (by simpa using hnodup)).2)]
    · simp [List.append_assoc]
    · intro r hr
      have hne : (r.1 == s) = false := by
        rw [beq_eq_false_iff_ne]
        intro he
        exact hnot (he ▸ List.mem_map_of_mem (fun r => r.1) hr)
      simp only []
      rw [lookup_append_none _ _ _ (hfresh r (List.mem_cons_of_mem _ hr))]
      exact lookup_singleton_ne s r.1 kv hne

/-- The row parser preserves distinctness of the stored keys: the duplicate
assert rejects any row whose key is already present, so a successful parse
has pairwise-distinct Kd keys. -/
theorem parseSeqRows_nodup :
    ∀ (lines : List (List Tok)) (acc maps : SeqMaps),
      (acc.Kd.map Prod.fst).Nodup →
      parseSeqRows lines acc = Except.ok maps →
      (maps.Kd.map Prod.fst).Nodup := by
  intro lines
  induction lines with
  | nil =>
    intro acc maps h hp
    simp only [parseSeqRows] at hp
    injection hp with h2
    rw [← h2]
    exact h
  | cons l rest ih =>
    intro acc maps h hp
    simp only [parseSeqRows] at hp
    split at hp
    · exact ih acc maps h hp
    · split at hp
      · rename_i s others heql
        split at hp
        · exact absurd hp (by simp)
        · rename_i hdup
          have hnone : acc.Kd.lookup s = Option.none :=
            Option.not_isSome_iff_eq_none.mp hdup
          have hnotmem := lookup_none_not_mem acc.Kd s hnone
          split at hp
          · rename_i a b c d
            cases hfa : floatTok a with
            | error e =>
              rw [hfa, except_error_bind] at hp
              exact absurd hp (by simp)
            | ok va =>
              rw [hfa, except_ok_bind] at hp
              cases hfb : floatTok b with
              | error e =>
                rw [hfb, except_error_bind] at hp
                exact absurd hp (by simp)
              | ok vb =>
                rw [hfb, except_ok_bind] at hp
                cases hfc : floatTok c with
                | error e =>
                  rw [hfc, except_error_bind] at hp
                  exact absurd hp (by simp)
                | ok vc =>
                  rw [hfc, except_ok_bind] at hp
                  cases hfd : floatTok d with
                  | error e =>
                    rw [hfd, except_error_bind] at hp
                    exact absurd hp (by simp)
                  | ok vd =>
                    rw [hfd, except_ok_bind] at hp
                    refine ih _ maps ?_ hp
                    rw [List.map_append, List.nodup_append]
                    refine ⟨h, by simp, ?_⟩
                    intro y hy hys
                    simp at hys
                    rw [hys] at hy
                    exact hnotmem hy
          · exact absurd hp (by simp)
      · exact absurd hp (by simp)
      · exact absurd hp (by simp)

/-- A successfully constructed IAKdData has pairwise-distinct sequence
keys: a file repeating a sequence identifier is rejected by the
duplicate assert. -/
theorem readKdFile_ok_nodup (lines : List (List Tok)) (d : IAKdData)
    (h : readKdFile lines = Except.ok d) : (d.Kd.map Prod.fst).Nodup := by
  unfold readKdFile at h
  split at h
  · exact absurd h (by simp)
  · split at h
    · split at h
      · exact absurd h (by simp)
      · rename_i tgt _
        unfold readNegLine at h
        split at h
        · exact absurd h (by simp)
        · split at h
          · split at h
            · exact absurd h (by simp)
            · rename_i nc _
              split at h
              · exact absurd h (by simp)
              · split at h
                · unfold readConcTable at h
                  split at h
                  · exact absurd h (by simp)
                  · rename_i rows hline rest4 _
                    split at h
                    · unfold readRows at h
                      split at h
                      · exact absurd h (by simp)
                      · rename_i maps hps
                        split at h
                        · exact absurd h (by simp)
                        · rename_i negKd _
                          split at h
                          · exact absurd h (by simp)
                          · rename_i tABA _
                            injection h with h5
                            rw [← h5]
                            exact parseSeqRows_nodup rest4 ⟨[], [], [], []⟩ maps
                              (by simp) hps
                    · exact absurd h (by simp)
                · exact absurd h (by simp)
          · exact absurd h (by simp)
    · exact absurd h (by simp)

/-- Evaluation of the data-row phase when the row parse and both final
dictionary lookups succeed. -/
theorem readRows_eval (tgt nc : String) (rows : List (ℝ × ℝ × ℝ)) (rest : List (List Tok))
    (maps : SeqMaps) (hps : parseSeqRows rest ⟨[], [], [], []⟩ = Except.ok maps)
    (negKd : ℝ) (hlk : maps.Kd.lookup nc = Option.some negKd)
    (tABA : ℝ) (hlk2 : maps.ABA.lookup tgt = Option.some tABA) :
    readRows tgt nc rows rest
      = Except.ok ⟨tgt, nc, rows.map (fun r => r.1), rows.map (fun r => r.2.1),
          rows.map (fun r => r.2.2), maps.Kd, maps.Kd_error, maps.ABA, maps.ABA_error,
          negKd, Real.log negKd, tABA⟩ := by
  unfold readRows
  simp only [hps, hlk, hlk2]

/-- C3: writing a strategy pair's results and reading the file back
reproduces the concentration/Imin/Imax lists and every sequence's
Kd, Kd error, ABA and ABA error exactly (numeric tokens absorb the
float-to-string-to-float round trip), provided the written columns are
aligned, the sequence identifiers are distinct, none starts with a hash,
and the file contains rows for the negative control and the target (whose
Kd/ABA the reader looks up while constructing itself). -/
theorem write_read_round_trip :
    ∀ (target neg_control : String) (concentrations Imin Imax : List ℝ)
      (seqs : List String) (Kds Kd_errors ABAs ABA_errors : List ℝ),
      concentrations.length = Imin.length → Imin.length = Imax.length →
      seqs.length = Kds.length → Kds.length = Kd_errors.length →
      Kd_errors.length = ABAs.length → ABAs.length = ABA_errors.length →
      seqs.Nodup →
      (∀ s ∈ seqs, strStartsWith s "#" = false) →
      neg_control ∈ seqs → target ∈ seqs →
      readResult (writeLines target neg_control concentrations Imin Imax seqs Kds Kd_errors
          ABAs ABA_errors)
        = Except.ok ((concentrations, Imin, Imax),
            (seqs.zip Kds, seqs.zip Kd_errors, seqs.zip ABAs, seqs.zip ABA_errors)) := by
  intro target neg_control concentrations Imin Imax seqs Kds Kd_errors ABAs ABA_errors
    hci hix hsk hkke hkea hae hnodup hhash hnc htgt
  have hw : writeLines target neg_control concentrations Imin Imax seqs Kds Kd_errors ABAs
      ABA_errors
      = targetHeaderLine target :: negHeaderLine neg_control :: concHeaderLine ::
          ((concentrations.zip (Imin.zip Imax)).map concRowTok
            ++ (seqHeaderLine
                :: (seqs.zip (Kds.zip (Kd_errors.zip (ABAs.zip ABA_errors)))).map seqRowTok)) := by
    simp [writeLines, List.append_assoc]
  have hlenz : seqs.length ≤ (Kds.zip (Kd_errors.zip (ABAs.zip ABA_errors))).length := by
    simp only [List.length_zip]
    omega
  have hkeys : (seqs.zip (Kds.zip (Kd_errors.zip (ABAs.zip ABA_errors)))).map
      (fun r => r.1) = seqs := by
    rw [show (fun (r : String × ℝ × ℝ × ℝ × ℝ) => r.1) = Prod.fst from rfl]
    exact List.map_fst_zip _ _ hlenz
  obtain ⟨hp1, hp2, hp3, hp4⟩ :=
    zip5_projections seqs Kds Kd_errors ABAs ABA_errors hsk hkke hkea hae
  have hps := parseSeqRows_append (seqs.zip (Kds.zip (Kd_errors.zip (ABAs.zip ABA_errors))))
    ⟨[], [], [], []⟩
    (fun r hr => hhash r.1 (List.of_mem_zip hr).1)
    (fun r _ => rfl)
    (by rw [hkeys]; exact hnodup)
  have hps' : parseSeqRows
      ((seqs.zip (Kds.zip (Kd_errors.zip (ABAs.zip ABA_errors)))).map seqRowTok)
      ⟨[], [], [], []⟩
      = Except.ok ⟨seqs.zip Kds, seqs.zip Kd_errors, seqs.zip ABAs, seqs.zip ABA_errors⟩ := by
    rw [hps]
    simp [hp1, hp2, hp3, hp4]
  obtain ⟨v1, hlk1⟩ := lookup_zip_mem seqs Kds neg_control hnc hsk
  obtain ⟨v2, hlk2⟩ := lookup_zip_mem seqs ABAs target htgt (by omega)
  unfold readResult
  rw [hw, readKdFile_cons_headers,
    readConcTable_table target neg_control (concentrations.zip (Imin.zip Imax)) seqHeaderLine
      ((seqs.zip (Kds.zip (Kd_errors.zip (ABAs.zip ABA_errors)))).map seqRowTok) rfl rfl,
    readRows_eval target neg_control (concentrations.zip (Imin.zip Imax))
      ((seqs.zip (Kds.zip (Kd_errors.zip (ABAs.zip ABA_errors)))).map seqRowTok)
      ⟨seqs.zip Kds, seqs.zip Kd_errors, seqs.zip ABAs, seqs.zip ABA_errors⟩ hps'
      v1 hlk1 v2 hlk2]
  obtain ⟨hq1, hq2, hq3⟩ := zip3_projections concentrations Imin Imax hci hix
  simp [Except.map, hq1, hq2, hq3]

/-- Witness for C3 on a two-sequence, one-concentration dataset. -/
theorem write_read_round_trip_witness :
    readResult (writeLines "T" "N" [10] [1] [2] ["T", "N"] [1, 2] [3, 4] [5, 6] [7, 8])
      = Except.ok ((([10] : List ℝ), ([1] : List ℝ), ([2] : List ℝ)),
          (["T", "N"].zip ([1, 2] : List ℝ), ["T", "N"].zip ([3, 4] : List ℝ),
           ["T", "N"].zip ([5, 6] : List ℝ), ["T", "N"].zip ([7, 8] : List ℝ))) :=
  write_read_round_trip "T" "N" [10] [1] [2] ["T", "N"] [1, 2] [3, 4] [5, 6] [7, 8]
    rfl rfl rfl rfl rfl rfl (by decide) (by decide) (by decide) (by decide)

/-- C8 counterexample: a file whose first line is not the target header is
rejected by the bare `assert line.startswith('# Target:')`: the resulting
AssertionError carries no message at all (Option.none), not a message
identifying the expected versus actual header. -/
theorem reader_header_no_message_counterexample :
    readKdFile [[Tok.str "#", Tok.str "Wrong"]]
      = Except.error (PyErr.assertionError Option.none) := rfl

/-- C8 (amended): the reader validates each of the three header lines and
fails fast on a mismatch, but with a BARE AssertionError carrying no
message (the asserts have no message argument); numeric fields are parsed
as floats (a three-number row parses, a row with a non-numeric field in a
numeric position raises ValueError); and a file in which the same sequence
identifier appears in more than one data row is rejected — equivalently,
any successfully constructed IAKdData has pairwise-distinct keys (the
duplicate assert does carry a message: the offending identifier). -/
theorem reader_validation_props :
    (∀ (l : List Tok) (rest : List (List Tok)), headerTarget l = false →
        readKdFile (l :: rest) = Except.error (PyErr.assertionError Option.none)) ∧
    (∀ (tgt : String) (l2 : List Tok) (rest : List (List Tok)), headerNeg l2 = false →
        readKdFile (targetHeaderLine tgt :: l2 :: rest)
          = Except.error (PyErr.assertionError Option.none)) ∧
    (∀ (tgt nc : String) (l3 : List Tok) (rest : List (List Tok)), headerConc l3 = false →
        readKdFile (targetHeaderLine tgt :: negHeaderLine nc :: l3 :: rest)
          = Except.error (PyErr.assertionError Option.none)) ∧
    (∀ (x y z : ℝ) (hl : List Tok) (rest : List (List Tok)), isHashLine hl = true →
        parseConcRows ([Tok.num x, Tok.num y, Tok.num z] :: hl :: rest)
          = Except.ok ([(x, y, z)], hl, rest)) ∧
    (∀ (x z : ℝ) (s : String) (rest : List (List Tok)),
        parseConcRows ([Tok.num x, Tok.str s, Tok.num z] :: rest)
          = Except.error PyErr.valueError) ∧
    (∀ (lines : List (List Tok)) (d : IAKdData), readKdFile lines = Except.ok d →
        (d.Kd.map Prod.fst).Nodup) := by
  refine ⟨?_, ?_, ?_, ?_, ?_, ?_⟩
  · intro l rest h
    simp [readKdFile, h]
  · intro tgt l2 rest h
    have h1 : readKdFile (targetHeaderLine tgt :: l2 :: rest)
        = readNegLine tgt (l2 :: rest) := rfl
    rw [h1]
    simp [readNegLine, h]
  · intro tgt nc l3 rest h
    have h1 : readKdFile (targetHeaderLine tgt :: negHeaderLine nc :: l3 :: rest)
        = readNegLine tgt (negHeaderLine nc :: l3 :: rest) := rfl
    have h2 : readNegLine tgt (negHeaderLine nc :: l3 :: rest)
        = if headerConc l3 then readConcTable tgt nc rest
          else Except.error (PyErr.assertionError Option.none) := rfl
    rw [h1, h2, h]
    simp
  · intro x y z hl rest hh
    exact parseConcRows_append [(x, y, z)] hl rest hh
  · intro x z s rest
    rfl
  · exact readKdFile_ok_nodup

/-- Witness for C8 (amended): a wrong first/second/third header each yields
the bare AssertionError; a numeric row parses while a lettered token in a
numeric field raises ValueError; and the read-back of a concrete two-row
file has distinct keys. -/
theorem reader_validation_props_witness :
    readKdFile [[Tok.str "#", Tok.str "Nope"]]
        = Except.error (PyErr.assertionError Option.none) ∧
      readKdFile (targetHeaderLine "T" :: [Tok.str "X"] :: [])
        = Except.error (PyErr.assertionError Option.none) ∧
      readKdFile (targetHeaderLine "T" :: negHeaderLine "N" :: [Tok.str "Y"] :: [])
        = Except.error (PyErr.assertionError Option.none) ∧
      parseConcRows ([Tok.num 1, Tok.num 2, Tok.num 3] :: seqHeaderLine :: [])
        = Except.ok ([((1 : ℝ), (2 : ℝ), (3 : ℝ))], seqHeaderLine, []) ∧
      parseConcRows ([Tok.num 1, Tok.str "a", Tok.num 2] :: [])
        = Except.error PyErr.valueError ∧
      ((IAKdData.mk "T" "N" [] [] [] [("T", 1), ("N", 2)] [("T", 3), ("N", 4)]
          [("T", 5), ("N", 6)] [("T", 7), ("N", 8)] 2 (Real.log 2) 5).Kd.map
        Prod.fst).Nodup :=
  ⟨reader_validation_props.1 [Tok.str "#", Tok.str "Nope"] [] rfl,
   reader_validation_props.2.1 "T" [Tok.str "X"] [] rfl,
   reader_validation_props.2.2.1 "T" "N" [Tok.str "Y"] [] rfl,
   reader_validation_props.2.2.2.1 1 2 3 seqHeaderLine [] rfl,
   reader_validation_props.2.2.2.2.1 1 2 "a" [],
   reader_validation_props.2.2.2.2.2
     (writeLines "T" "N" [] [] [] ["T", "N"] [1, 2] [3, 4] [5, 6] [7, 8])
     (IAKdData.mk "T" "N" [] [] [] [("T", 1), ("N", 2)] [("T", 3), ("N", 4)]
       [("T", 5), ("N", 6)] [("T", 7), ("N", 8)] 2 (Real.log 2) 5)
     rfl⟩

end Champ
